import Mathlib

/-!
A shallow embedding of the single-file code-quality checker
`CodeMINITOR/analyzer.py` and proofs about it.

The embedding covers, in order:
* the scoring engine (class `ScoreEngine`, function `calculate`);
* the JSON history store (class `HistoryStore`: `save_score`, `get_all`,
  `get_statistics`), with the filesystem and the behaviour of the external
  `json` library abstracted into an explicit file-state type;
* the metric extractor (class `CodeAnalyzer`, function `analyze` and its
  helpers), over an explicit fragment of the Python abstract syntax tree;
* the CLI entry point (`main`), with `sys.argv` and the filesystem as
  explicit parameters.

Python integers are modelled as `Int` (counts, which are provably
non-negative, as `Nat`); Python's float division in the statistics is
modelled as exact rational division; fallible Python code is modelled with
`Except`.
-/

namespace CodeMonitor

/-! ## Constants from the source header -/

def MAX_FUNCTION_LINES : Int := 20

def MAX_FILE_LINES : Nat := 300

def DEFAULT_SCORE : Int := 100

/-! ## ScoreEngine

The `metrics` dictionary produced by `CodeAnalyzer.analyze` always holds the
same six keys, each a non-negative count, so it is modelled as a record of
`Nat` fields. -/

structure MetricSet where
  lines : Nat
  functions : Nat
  imports : Nat
  docstrings : Nat
  type_hints : Nat
  long_functions : Nat
deriving DecidableEq, Repr

/-- Body of `ScoreEngine.calculate` up to (but not including) the final
`return max(score, 0)` clamp: successive conditional deductions from the
base score of 100, mirroring the source line by line. -/
def rawScore (m : MetricSet) : Int :=
  let score : Int := DEFAULT_SCORE
  let score :=
    if m.functions = 0 then score - 30
    else
      let score := if m.docstrings < m.functions then score - 10 else score
      let score := if m.type_hints < m.functions then score - 10 else score
      score
  let score := if m.long_functions > 0 then score - 10 else score
  let score := if m.lines > MAX_FILE_LINES then score - 10 else score
  score

/-- The function `ScoreEngine.calculate`: the deduction chain followed by the
final `return max(score, 0)`. -/
def calculate (m : MetricSet) : Int := max (rawScore m) 0

/-- Claim-side rendering of the fixed penalty table, written from the words
of the specification (base 100; minus 30 when there are no functions,
otherwise minus 10 for missing docstrings and minus 10 for missing type
hints; minus 10 for long functions; minus 10 for an overlong file).
To be compared with the `calculate` translated from the source. -/
def penaltyTableScore (m : MetricSet) : Int :=
  100 -
    (if m.functions = 0 then 30
     else (if m.docstrings < m.functions then 10 else 0) +
          (if m.type_hints < m.functions then 10 else 0)) -
    (if m.long_functions > 0 then 10 else 0) -
    (if m.lines > 300 then 10 else 0)

/-! ## HistoryStore

The store reads and writes one file (`history.json`) through
`Path.read_text`, `Path.write_text`, `json.loads` and `json.dumps`.  The
filesystem and the `json` library are external to the repository, so the
observable state of the history file is abstracted into `FileState`:

* `missing`      : `self.filename.exists()` is false;
* `ioError`      : the file exists but `read_text` raises `IOError`;
* `undecodable`  : the file exists but its bytes are not valid UTF-8, so
                   `read_text(encoding="utf-8")` raises `UnicodeDecodeError`
                   (a `ValueError`, caught neither by `json.JSONDecodeError`
                   nor by `IOError`);
* `badJson`      : the text is read but is not valid JSON, so `json.loads`
                   raises `json.JSONDecodeError`;
* `good v`       : the text is read and `json.loads` returns the value `v`.

JSON values are modelled by `JsonVal`; JSON numbers are modelled as
integers only (every value this program ever writes is an integer score,
and the claims under study involve integer histories only). -/

inductive JsonVal where
  | null
  | bool (b : Bool)
  | int (n : Int)
  | str (s : String)
  | arr (elems : List JsonVal)
  | obj (fields : List (String × JsonVal))

inductive FileState where
  | missing
  | ioError
  | undecodable
  | badJson
  | good (v : JsonVal)

/-- Python exceptions that the modelled fragments can raise. -/
inductive PyExc where
  | unicodeDecodeError
  | attributeError
  | typeError
  | valueError
deriving DecidableEq, Repr

/-- Python truthiness (`if not history:`) of a JSON-shaped value. -/
def pyFalsy : JsonVal → Bool
  | .null => true
  | .bool b => !b
  | .int n => n = 0
  | .str s => s.data.isEmpty
  | .arr elems => elems.isEmpty
  | .obj fields => fields.isEmpty

/-- The predicate used to speak about well-formed histories: a flat JSON
list of integer scores. -/
def isScoreList : JsonVal → Bool
  | .arr elems => elems.all fun v => match v with | .int _ => true | _ => false
  | _ => false

/-- Test for the empty JSON list. -/
def isEmptyList : JsonVal → Bool
  | .arr [] => true
  | _ => false

/-- The method `HistoryStore.get_all`:

    if not self.filename.exists(): return []
    try: return json.loads(self.filename.read_text(encoding="utf-8"))
    except (json.JSONDecodeError, IOError): return []

An `IOError` from `read_text` and a `JSONDecodeError` from `json.loads`
are both caught and turned into `[]`; a `UnicodeDecodeError` from
`read_text` matches neither handler and escapes; a successful parse is
returned as-is, whatever JSON value it is. -/
def get_all : FileState → Except PyExc JsonVal
  | .missing => .ok (.arr [])
  | .ioError => .ok (.arr [])
  | .undecodable => .error .unicodeDecodeError
  | .badJson => .ok (.arr [])
  | .good v => .ok v

/-- The method `HistoryStore.save_score`:

    history = self.get_all()
    history.append(score)
    try: self.filename.write_text(json.dumps(history), ...)
    except IOError as e: console.print(warning)

`history.append` exists only on lists, so a non-list parse raises
`AttributeError`.  A successful `write_text` leaves the file holding
`json.dumps(history)`, whose re-parse is the same value (`dumps`/`loads`
round-trip on this value model); `writeOk = false` models the caught
`IOError` on write: a warning is printed and the file is unchanged. -/
def save_score (score : Int) (writeOk : Bool) (st : FileState) :
    Except PyExc FileState :=
  match get_all st with
  | .error e => .error e
  | .ok history =>
    match history with
    | .arr elems =>
      if writeOk then .ok (.good (.arr (elems ++ [.int score])))
      else .ok st
    | _ => .error .attributeError

/-- Iterated `save_score` with every write succeeding, used to state the
round-trip property over a whole run sequence. -/
def saveAll (scores : List Int) (st : FileState) : Except PyExc FileState :=
  match scores with
  | [] => .ok st
  | s :: rest =>
    match save_score s true st with
    | .ok st2 => saveAll rest st2
    | .error e => .error e

/-- The dictionary returned by `HistoryStore.get_statistics`.  The Python
value of `"average"` is `sum(history) / len(history)`, a float; it is
modelled as the exact rational (the empty-history branch returns the
integer 0, which coincides with the rational 0). -/
structure Stats where
  runs : Nat
  average : ℚ
  best : Int
deriving DecidableEq, Repr

/-- Interpret a parsed JSON array as a Python list of integers; any
non-integer element makes `sum`/`max` in `get_statistics` raise. -/
def asIntList : List JsonVal → Option (List Int)
  | [] => some []
  | .int n :: rest => (asIntList rest).map (n :: ·)
  | _ => none

/-- Python's `max` on a non-empty list, as the source uses it. -/
def listMax (h : Int) (t : List Int) : Int := t.foldl max h

/-- The method `HistoryStore.get_statistics`:

    history = self.get_all()
    if not history: return {"runs": 0, "average": 0, "best": 0}
    return {"runs": len(history), "average": sum(history) / len(history),
            "best": max(history)}

`if not history` is Python truthiness (`pyFalsy`).  On a truthy non-list
value the dict construction raises `TypeError` (`len` of an int, or `sum`
over non-integer elements); `max([])` would raise `ValueError`, kept for
totality although the falsy guard makes it unreachable. -/
def get_statistics (st : FileState) : Except PyExc Stats :=
  match get_all st with
  | .error e => .error e
  | .ok history =>
    if pyFalsy history then .ok ⟨0, 0, 0⟩
    else
      match history with
      | .arr elems =>
        match asIntList elems with
        | none => .error .typeError
        | some [] => .error .valueError
        | some (h :: t) =>
          .ok ⟨(h :: t).length,
               (((h :: t).sum : Int) : ℚ) / (((h :: t).length : Nat) : ℚ),
               listMax h t⟩
      | _ => .error .typeError

/-! ## CodeAnalyzer: a fragment of the Python AST

`analyze` parses the source with `ast.parse` (the parser is the external
`ast` library; a `SyntaxError` or `UnicodeDecodeError` aborts the process
before any metric is computed, so the metric computation is modelled on a
given parse tree).  The statement fragment below covers every compound
statement the counted node kinds can nest under; expression nodes are
represented only as far as the metrics inspect them (string-literal
constants for docstrings, mere presence for annotations), since no Python
expression can contain a `FunctionDef`, `Import` or `ImportFrom` node. -/

inductive Expr where
  | strLit (s : String)
  | nameE (id : String)
  | otherE
deriving DecidableEq, Repr

/-- One formal parameter (`ast.arg`); `ann` models its `annotation`
field, `none` standing for Python `None`. -/
structure Arg where
  ann : Option Expr
deriving DecidableEq, Repr

/-- The `ast.arguments` record of a function definition. -/
structure Args where
  posonlyargs : List Arg
  args : List Arg
  kwonlyargs : List Arg
  vararg : Option Arg
  kwarg : Option Arg
deriving DecidableEq, Repr

/-- Python statements, as far as the analyzer inspects them.  The
`functionDef` fields mirror `ast.FunctionDef`: name, arguments, the
optional `returns` annotation, the body, and the `lineno`/`end_lineno`
positions.  `otherStmt` stands for any simple statement with no nested
statement list (`pass`, `return`, assignments, ...). -/
inductive Stmt where
  | functionDef (name : String) (args : Args) ( returns : Option Expr)
      (body : List Stmt) (lineno : Nat) (endLineno : Nat)
  | classDef (name : String) (body : List Stmt)
  | ifStmt (body : List Stmt) (orelse : List Stmt)
  | whileStmt (body : List Stmt) (orelse : List Stmt)
  | forStmt (body : List Stmt) (orelse : List Stmt)
  | withStmt (body : List Stmt)
  | importStmt
  | importFrom
  | exprStmt (value : Expr)
  | otherStmt

/-- The result of `ast.parse`: a `Module` node holding the top-level
statement list. -/
structure Module where
  body : List Stmt

/-- Test for `isinstance(n, ast.FunctionDef)`. -/
def Stmt.isFunctionDef : Stmt → Bool
  | .functionDef .. => true
  | _ => false

/-- Test for `isinstance(n, (ast.Import, ast.ImportFrom))`. -/
def Stmt.isImport : Stmt → Bool
  | .importStmt => true
  | .importFrom => true
  | _ => false

/-- Field access `node.args` on a function node (junk on other nodes,
which the analyzer never performs). -/
def Stmt.fnArgsOf : Stmt → Args
  | .functionDef _ a _ _ _ _ => a
  | _ => ⟨[], [], [], none, none⟩

/-- Field access `node.returns` on a function node. -/
def Stmt.fnReturns : Stmt → Option Expr
  | .functionDef _ _ r _ _ _ => r
  | _ => none

/-- Field access `node.body` on a function node. -/
def Stmt.fnBody : Stmt → List Stmt
  | .functionDef _ _ _ b _ _ => b
  | _ => []

/-- Field access `node.lineno` on a function node. -/
def Stmt.fnLineno : Stmt → Nat
  | .functionDef _ _ _ _ l _ => l
  | _ => 0

/-- Field access `node.end_lineno` on a function node. -/
def Stmt.fnEndLineno : Stmt → Nat
  | .functionDef _ _ _ _ _ e => e
  | _ => 0

mutual

/-- All statement nodes reachable from a statement, the statement itself
included.  `ast.walk` enumerates breadth-first and also yields expression
and argument nodes; only the multiset of statement nodes matters to the
counting metrics (no expression node is a `FunctionDef`, `Import` or
`ImportFrom`), and every count taken over the walk is order-independent,
so a depth-first statement walk is an adequate model. -/
def walkStmt : Stmt → List Stmt
  | .functionDef n a r b l e => .functionDef n a r b l e :: walkStmts b
  | .classDef n b => .classDef n b :: walkStmts b
  | .ifStmt b o => .ifStmt b o :: (walkStmts b ++ walkStmts o)
  | .whileStmt b o => .whileStmt b o :: (walkStmts b ++ walkStmts o)
  | .forStmt b o => .forStmt b o :: (walkStmts b ++ walkStmts o)
  | .withStmt b => .withStmt b :: walkStmts b
  | s => [s]

/-- Walk of a statement list, in order. -/
def walkStmts : List Stmt → List Stmt
  | [] => []
  | s :: rest => walkStmt s ++ walkStmts rest

end

/-- The list comprehension
`functions = [n for n in ast.walk(tree) if isinstance(n, ast.FunctionDef)]`.
The root `Module` node yielded by `ast.walk` is never a `FunctionDef`,
so filtering the statement walk of the body is exact. -/
def functionsOf (tree : Module) : List Stmt :=
  (walkStmts tree.body).filter Stmt.isFunctionDef

/-! ### Docstring detection: `ast.get_docstring` with `clean=True` -/

/-- Python whitespace for `str.lstrip()` and friends (ASCII range; exotic
Unicode whitespace inside docstrings is outside the model). -/
def pyIsSpace (c : Char) : Bool :=
  c = ' ' || c = '\t' || c = '\n' || c = '\r' || c = '\x0b' || c = '\x0c'

/-- Column-aware `str.expandtabs()` with the default tab size 8, as called
by `inspect.cleandoc`. -/
def expandtabsAux : List Char → Nat → List Char
  | [], _ => []
  | c :: cs, col =>
    if c = '\t' then
      List.replicate (8 - col % 8) ' ' ++ expandtabsAux cs (col + (8 - col % 8))
    else if c = '\n' || c = '\r' then
      c :: expandtabsAux cs 0
    else
      c :: expandtabsAux cs (col + 1)

/-- The split `doc.expandtabs().split('\n')` of `inspect.cleandoc`,
generalised over the separator character. -/
def splitOnChar (sep : Char) : List Char → List (List Char)
  | [] => [[]]
  | c :: cs =>
    let r := splitOnChar sep cs
    if c = sep then [] :: r
    else
      match r with
      | [] => [[c]]
      | l :: ls => (c :: l) :: ls

/-- Length of `line.lstrip()`. -/
def contentLen (l : List Char) : Nat := (l.dropWhile pyIsSpace).length

/-- The function `inspect.cleandoc`, which `ast.get_docstring` applies to
the raw docstring before returning it: expand tabs, strip the smallest
common margin of the lines after the first, strip the first line's leading
whitespace, then drop trailing and leading blank lines. -/
def cleandoc (doc : List Char) : List Char :=
  let lines := splitOnChar '\n' (expandtabsAux doc 0)
  match lines with
  | [] => []
  | first :: rest =>
    let margins := rest.filterMap fun l =>
      if contentLen l = 0 then none else some (l.length - contentLen l)
    let first2 := first.dropWhile pyIsSpace
    let rest2 :=
      match margins.min? with
      | none => rest
      | some m => rest.map fun l => l.drop m
    let ls := first2 :: rest2
    let ls := (ls.reverse.dropWhile List.isEmpty).reverse
    let ls := ls.dropWhile List.isEmpty
    match ls with
    | [] => []
    | x :: xs => xs.foldl (fun acc l => acc ++ '\n' :: l) x

/-- The function `ast.get_docstring(node)` (default `clean=True`) on a
function node: `some` of the cleaned text when the first body statement is
an expression statement whose value is a string constant, `none`
otherwise. -/
def get_docstring : Stmt → Option (List Char)
  | .functionDef _ _ _ (.exprStmt (.strLit s) :: _) _ _ => some (cleandoc s.data)
  | _ => none

/-- Python truthiness of the `Optional[str]` returned by
`ast.get_docstring`: `None` and the empty string are falsy. -/
def pyTruthyStr : Option (List Char) → Bool
  | none => false
  | some s => !s.isEmpty

/-- One step of the loop in `CodeAnalyzer._count_type_hints`. -/
def typeHintStep (count : Nat) (node : Stmt) : Nat :=
  let has_return_hint := node.fnReturns.isSome
  let has_args_hint := node.fnArgsOf.args.any fun a => a.ann.isSome
  if has_return_hint || has_args_hint then count + 1 else count

/-- The method `CodeAnalyzer._count_type_hints`: a counting loop over the
function list, testing `node.returns is not None` and
`any(arg.annotation for arg in node.args.args)`. -/
def count_type_hints (functions : List Stmt) : Nat :=
  functions.foldl typeHintStep 0

/-- The method `CodeAnalyzer._count_long_functions`:
`sum(1 for n in functions if (n.end_lineno - n.lineno) > MAX_FUNCTION_LINES)`
(Python subtraction of ints, hence the cast to `Int`). -/
def count_long_functions (functions : List Stmt) : Nat :=
  functions.countP fun n =>
    (n.fnEndLineno : Int) - (n.fnLineno : Int) > MAX_FUNCTION_LINES

/-- Line-break characters recognised by `str.splitlines()`. -/
def pyIsLineBreak (c : Char) : Bool :=
  c = '\n' || c = '\r' || c = '\x0b' || c = '\x0c' ||
  c = '\x1c' || c = '\x1d' || c = '\x1e' || c = '\x85' ||
  c = '\u2028' || c = '\u2029'

/-- Number of lines of `source.splitlines()`: every line break ends a
line; trailing content without a line break still counts as one line;
the empty text has zero lines.  `pending` records whether the current
line has any characters so far. -/
def splitlinesCountAux : List Char → Bool → Nat
  | [], pending => if pending then 1 else 0
  | '\r' :: '\n' :: cs, _ => 1 + splitlinesCountAux cs false
  | c :: cs, _ =>
    if pyIsLineBreak c then 1 + splitlinesCountAux cs false
    else splitlinesCountAux cs true

/-- The expression `len(source.splitlines())`. -/
def splitlinesCount (source : String) : Nat :=
  splitlinesCountAux source.data false

/-- The method `CodeAnalyzer.analyze` after a successful parse: the
`metrics` dictionary, built from the raw source text and its parse
`tree`. -/
def analyze (source : String) (tree : Module) : MetricSet :=
  let functions := functionsOf tree
  { lines := splitlinesCount source
    functions := functions.length
    imports := (walkStmts tree.body).countP Stmt.isImport
    docstrings := functions.countP fun n => pyTruthyStr (get_docstring n)
    type_hints := count_type_hints functions
    long_functions := count_long_functions functions }

/-! ### Claim-side characterisations of the extracted metrics -/

mutual

/-- Number of function-definition nodes anywhere in a statement, nested
definitions included (claim-side structural count, to be compared with the
filter over the source's walk). -/
def fnDefCount : Stmt → Nat
  | .functionDef _ _ _ b _ _ => 1 + fnDefCountList b
  | .classDef _ b => fnDefCountList b
  | .ifStmt b o => fnDefCountList b + fnDefCountList o
  | .whileStmt b o => fnDefCountList b + fnDefCountList o
  | .forStmt b o => fnDefCountList b + fnDefCountList o
  | .withStmt b => fnDefCountList b
  | _ => 0

/-- Number of function-definition nodes anywhere under a statement list. -/
def fnDefCountList : List Stmt → Nat
  | [] => 0
  | s :: rest => fnDefCount s + fnDefCountList rest

end

mutual

/-- Number of import-statement nodes (plain and from-style) anywhere in a
statement (claim-side structural count). -/
def importCount : Stmt → Nat
  | .functionDef _ _ _ b _ _ => importCountList b
  | .classDef _ b => importCountList b
  | .ifStmt b o => importCountList b + importCountList o
  | .whileStmt b o => importCountList b + importCountList o
  | .forStmt b o => importCountList b + importCountList o
  | .withStmt b => importCountList b
  | .importStmt => 1
  | .importFrom => 1
  | _ => 0

/-- Number of import-statement nodes anywhere under a statement list. -/
def importCountList : List Stmt → Nat
  | [] => 0
  | s :: rest => importCount s + importCountList rest

end

/-- Claim-side predicate of C4 as stated: the first statement of the
function body is a literal string expression (of any content). -/
def firstStmtIsStrLit : Stmt → Bool
  | .functionDef _ _ _ (.exprStmt (.strLit _) :: _) _ _ => true
  | _ => false

/-- Amended claim-side predicate for the docstring metric: the first
statement is a literal string expression whose text is still non-empty
after the cleaning `ast.get_docstring` performs. -/
def firstStmtIsNonblankStrLit : Stmt → Bool
  | .functionDef _ _ _ (.exprStmt (.strLit s) :: _) _ _ =>
      !(cleandoc s.data).isEmpty
  | _ => false

/-- Claim-side predicate of C3 as stated: a return-type annotation, or a
type annotation on at least one parameter of any kind (positional-only,
positional-or-keyword, keyword-only, `*args` or `**kwargs`). -/
def anyParamAnnotated (s : Stmt) : Bool :=
  let a := s.fnArgsOf
  s.fnReturns.isSome ||
    (a.posonlyargs ++ a.args ++ a.kwonlyargs).any (fun x => x.ann.isSome) ||
    (a.vararg.map (fun x => x.ann.isSome)).getD false ||
    (a.kwarg.map (fun x => x.ann.isSome)).getD false

/-- Amended claim-side predicate for the type-hint metric: a return-type
annotation, or a type annotation on at least one positional-or-keyword
parameter (the `args.args` list); annotations on positional-only,
keyword-only, `*args` and `**kwargs` parameters are not considered. -/
def returnOrPosArgAnnotated (s : Stmt) : Bool :=
  s.fnReturns.isSome || s.fnArgsOf.args.any fun a => a.ann.isSome

/-! ### Concrete inputs for the counterexamples -/

/-- Parse tree of the two-line source `"def f(*, x: int):\n    pass"`:
one function whose only annotated parameter is keyword-only. -/
def kwonlyModule : Module :=
  ⟨[.functionDef "f" ⟨[], [], [⟨some (.nameE "int")⟩], none, none⟩ none
      [.otherStmt] 1 2]⟩

/-- Parse tree of the two-line source `"def f():\n    \"\""`:
one function whose docstring is the empty string literal. -/
def emptyDocModule : Module :=
  ⟨[.functionDef "f" ⟨[], [], [], none, none⟩ none
      [.exprStmt (.strLit "")] 1 2]⟩

/-! ## Reporter / CLI

`main` validates `sys.argv` and the input path before the pipeline runs.
`sys.argv` is modelled as the program name plus the argument list, and the
filesystem query `Path.is_file()` as an oracle.  The three mutually
exclusive outcomes stand for `sys.exit(1)` from the usage check,
`sys.exit(1)` from the path validation, and reaching the analysis
pipeline. -/

inductive CliOutcome where
  | usageError
  | validationError (path : String)
  | pipeline (path : String)
deriving DecidableEq, Repr

/-- Index of the last occurrence of a dot, as in `name.rfind('.')`
(`none` standing for the return value `-1`). -/
def lastDotIndex : List Char → Option Nat
  | [] => none
  | c :: cs =>
    match lastDotIndex cs with
    | some i => some (i + 1)
    | none => if c = '.' then some 0 else none

/-- The final component `PurePath.name` of a path string: the last
component after splitting on the separator, with empty and single-dot
components dropped as `pathlib` normalisation drops them (the empty string
for a root or empty path). -/
def pathName (p : String) : List Char :=
  ((splitOnChar '/' p.data).filter
    (fun seg => !seg.isEmpty && seg != ['.'])).getLastD []

/-- The property `PurePath.suffix`, per the `pathlib` source:

    name = self.name; i = name.rfind('.')
    return name[i:] if 0 < i < len(name) - 1 else ''

so a name without a dot, a dotfile name such as `".py"`, and a name ending
in a dot all have the empty suffix. -/
def pathSuffix (p : String) : List Char :=
  let nm := pathName p
  match lastDotIndex nm with
  | none => []
  | some i => if 0 < i ∧ i + 1 < nm.length then nm.drop i else []

/-- The function `main` up to its validation steps:

    if len(sys.argv) != 2: console.print(usage); sys.exit(1)
    file_path = Path(sys.argv[1])
    if not file_path.is_file() or file_path.suffix != ".py":
        console.print(error); sys.exit(1)
    ... the analysis pipeline ...

`sys.argv` is `progName :: args`; `is_file` is the filesystem oracle. -/
def main (progName : String) (args : List String)
    (is_file : String → Bool) : CliOutcome :=
  if (progName :: args).length ≠ 2 then .usageError
  else
    let file_path := args.headD ""
    if is_file file_path = false ∨ pathSuffix file_path ≠ ['.', 'p', 'y'] then
      .validationError file_path
    else
      .pipeline file_path

/-! ## Theorems -/

/-! ### Helper lemmas -/

theorem le_listMax_self (h : Int) (t : List Int) : h ≤ listMax h t := by
  induction t generalizing h with
  | nil => simp [listMax]
  | cons y ys ih =>
    have : listMax h (y :: ys) = listMax (max h y) ys := rfl
    rw [this]
    exact le_trans (le_max_left h y) (ih (max h y))

theorem listMax_mem (h : Int) (t : List Int) : listMax h t ∈ h :: t := by
  induction t generalizing h with
  | nil => simp [listMax]
  | cons y ys ih =>
    have heq : listMax h (y :: ys) = listMax (max h y) ys := rfl
    rw [heq]
    rcases List.mem_cons.mp (ih (max h y)) with h1 | h1
    · rcases max_choice h y with hm | hm
      · rw [h1, hm]; exact List.mem_cons_self _ _
      · rw [h1, hm]; exact List.mem_cons_of_mem _ (List.mem_cons_self _ _)
    · exact List.mem_cons_of_mem _ (List.mem_cons_of_mem _ h1)

theorem le_listMax (h : Int) (t : List Int) : ∀ x ∈ h :: t, x ≤ listMax h t := by
  induction t generalizing h with
  | nil =>
    intro x hx
    rw [List.mem_singleton.mp hx]
    simp [listMax]
  | cons y ys ih =>
    intro x hx
    have heq : listMax h (y :: ys) = listMax (max h y) ys := rfl
    rw [heq]
    rcases List.mem_cons.mp hx with rfl | hx2
    · exact le_trans (le_max_left x y) (le_listMax_self _ _)
    · rcases List.mem_cons.mp hx2 with rfl | hx3
      · exact le_trans (le_max_right h x) (le_listMax_self _ _)
      · exact ih (max h y) x (List.mem_cons_of_mem _ hx3)

theorem asIntList_map_int (ns : List Int) :
    asIntList (ns.map JsonVal.int) = some ns := by
  induction ns with
  | nil => rfl
  | cons n rest ih => simp [asIntList, ih]

theorem saveAll_good (scores : List Int) (xs : List JsonVal) :
    saveAll scores (.good (.arr xs)) =
      .ok (.good (.arr (xs ++ scores.map JsonVal.int))) := by
  induction scores generalizing xs with
  | nil => simp [saveAll]
  | cons s rest ih =>
    simp [saveAll, save_score, get_all, ih, List.append_assoc]

/-! ### C1 and C10: the scoring engine -/

/-- C1: ScoreEngine.calculate implements the fixed penalty table: starting
from 100, if functions == 0 it deducts 30 and skips the docstring/type-hint
rules; otherwise it deducts 10 when docstrings < functions and 10 when
type_hints < functions; then, in either case, it deducts 10 when
long_functions > 0 and 10 when lines > 300.  In particular, for every
MetricSet with functions = docstrings = type_hints = long_functions = 0 the
score is exactly 70 when lines <= 300 and exactly 60 when lines > 300. -/
theorem scoreEngine_calculate_penalty_table :
    (∀ m : MetricSet, calculate m = penaltyTableScore m) ∧
    (∀ m : MetricSet, m.functions = 0 → m.docstrings = 0 → m.type_hints = 0 →
      m.long_functions = 0 →
      (m.lines ≤ 300 → calculate m = 70) ∧ (m.lines > 300 → calculate m = 60)) := by
  constructor
  · intro m
    simp only [calculate, rawScore, penaltyTableScore, DEFAULT_SCORE, MAX_FILE_LINES]
    split_ifs <;> omega
  · intro m hf _ _ hl
    simp only [calculate, rawScore, DEFAULT_SCORE, MAX_FILE_LINES, hf, hl]
    constructor <;> intro hlin <;> split_ifs <;> omega

/-- Witness for C1 at concrete inputs: a 50-line file with no functions
scores 70, and a 301-line file with no functions scores 60. -/
theorem scoreEngine_calculate_penalty_table_witness :
    calculate ⟨50, 0, 0, 0, 0, 0⟩ = 70 ∧ calculate ⟨301, 0, 0, 0, 0, 0⟩ = 60 :=
  ⟨(scoreEngine_calculate_penalty_table.2 ⟨50, 0, 0, 0, 0, 0⟩
      rfl rfl rfl rfl).1 (by decide),
   (scoreEngine_calculate_penalty_table.2 ⟨301, 0, 0, 0, 0, 0⟩
      rfl rfl rfl rfl).2 (by decide)⟩

/-- C10: For every metric dictionary with the six non-negative integer
fields, ScoreEngine.calculate returns a value in [50, 100]: the worst
reachable total deduction is 50, so the final clamp max(score, 0) never
changes the result and a score below 50 is unreachable. -/
theorem calculate_range_clamp_noop (m : MetricSet) :
    50 ≤ calculate m ∧ calculate m ≤ 100 ∧ calculate m = rawScore m := by
  simp only [calculate, rawScore, DEFAULT_SCORE, MAX_FILE_LINES]
  split_ifs <;> omega

/-! ### C2, C6, C7: the history store -/

/-- C2 counterexample: a history file containing the valid JSON text
`"x"` (a JSON string).  `json.loads` succeeds, so `get_all` returns the
parsed string unchanged: a truthy, non-list value, although the file does
not contain a well-formed history. -/
theorem historyStore_get_all_nonlist_cex :
    get_all (.good (.str "x")) = .ok (.str "x") ∧
    isEmptyList (.str "x") = false ∧
    isScoreList (.str "x") = false ∧
    pyFalsy (.str "x") = false :=
  ⟨rfl, rfl, rfl, rfl⟩

/-- C2 amended: get_all returns the empty list when the history file is
missing, when reading it raises IOError, or when its text is not valid
JSON; when the text parses as JSON, get_all returns the parsed value
as-is, whatever shape it has; and a file whose bytes are not valid UTF-8
makes get_all raise UnicodeDecodeError to the caller. -/
theorem historyStore_get_all_behavior :
    get_all .missing = .ok (.arr []) ∧
    get_all .ioError = .ok (.arr []) ∧
    get_all .badJson = .ok (.arr []) ∧
    (∀ v : JsonVal, get_all (.good v) = .ok v) ∧
    get_all .undecodable = .error .unicodeDecodeError :=
  ⟨rfl, rfl, rfl, fun _ => rfl, rfl⟩

/-- C6: Round-trip: starting from an absent history file, from a present
but invalid (for instance zero-byte) one, or from a file holding the empty
list, saving the scores s1..sN in order with every write succeeding and
then calling get_all yields exactly [s1, ..., sN] in that order. -/
theorem historyStore_roundtrip (scores : List Int) :
    (saveAll scores .missing >>= get_all) =
      .ok (.arr (scores.map JsonVal.int)) ∧
    (saveAll scores .badJson >>= get_all) =
      .ok (.arr (scores.map JsonVal.int)) ∧
    (saveAll scores (.good (.arr [])) >>= get_all) =
      .ok (.arr (scores.map JsonVal.int)) := by
  have hgood : ∀ st : FileState, st = .missing ∨ st = .badJson ∨ st = .good (.arr []) →
      (saveAll scores st >>= get_all) = .ok (.arr (scores.map JsonVal.int)) := by
    intro st hst
    cases scores with
    | nil =>
      rcases hst with rfl | rfl | rfl <;> rfl
    | cons s rest =>
      have hstep : save_score s true st = .ok (.good (.arr [JsonVal.int s])) := by
        rcases hst with rfl | rfl | rfl <;> rfl
      simp only [saveAll, hstep, saveAll_good, List.nil_append, List.map_cons]
      rfl
  exact ⟨hgood _ (Or.inl rfl), hgood _ (Or.inr (Or.inl rfl)),
    hgood _ (Or.inr (Or.inr rfl))⟩

/-- C7: HistoryStore.get_statistics returns {runs: 0, average: 0, best: 0}
when the history is empty (absent file or empty list), and otherwise
returns runs = the length of the history, average = the arithmetic mean,
and best = the maximum of the history (an element at least as large as
every element); on history [80, 100] it returns
{runs: 2, average: 90, best: 100}. -/
theorem historyStore_get_statistics_spec :
    get_statistics .missing = .ok ⟨0, 0, 0⟩ ∧
    get_statistics (.good (.arr [])) = .ok ⟨0, 0, 0⟩ ∧
    (∀ (h : Int) (t : List Int),
      get_statistics (.good (.arr ((h :: t).map JsonVal.int))) =
        .ok ⟨(h :: t).length,
             (((h :: t).sum : Int) : ℚ) / (((h :: t).length : Nat) : ℚ),
             listMax h t⟩ ∧
      listMax h t ∈ h :: t ∧ (∀ x ∈ h :: t, x ≤ listMax h t)) ∧
    get_statistics (.good (.arr [.int 80, .int 100])) = .ok ⟨2, 90, 100⟩ := by
  refine ⟨rfl, rfl, fun h t => ⟨?_, listMax_mem h t, le_listMax h t⟩, ?_⟩
  · have h2 := asIntList_map_int (h :: t)
    simp only [List.map_cons] at h2
    simp [get_statistics, get_all, pyFalsy, h2]
  · have h2 := asIntList_map_int [80, 100]
    simp only [List.map_cons, List.map_nil] at h2
    simp [get_statistics, get_all, pyFalsy, h2, listMax]
    norm_num

/-- Witness for C7, instantiating the non-empty case at the history
[80, 100]. -/
theorem historyStore_get_statistics_spec_witness :
    get_statistics (.good (.arr ((80 :: [100]).map JsonVal.int))) =
      .ok ⟨(80 :: [100]).length,
           (((80 :: [100]).sum : Int) : ℚ) / (((80 :: [100]).length : Nat) : ℚ),
           listMax 80 [100]⟩ ∧
    (100 : Int) ≤ listMax 80 [100] := by
  obtain ⟨-, -, hmain, -⟩ := historyStore_get_statistics_spec
  obtain ⟨heq, -, hle⟩ := hmain 80 [100]
  exact ⟨heq, hle 100 (by simp)⟩

/-! ### Helper lemmas for the extractor -/

mutual

theorem walkStmt_countP_fn (s : Stmt) :
    (walkStmt s).countP Stmt.isFunctionDef = fnDefCount s := by
  cases s with
  | functionDef n a r b l e =>
    simp [walkStmt, fnDefCount, List.countP_cons, Stmt.isFunctionDef,
      walkStmts_countP_fn b, Nat.add_comm]
  | classDef n b =>
    simp [walkStmt, fnDefCount, List.countP_cons, Stmt.isFunctionDef,
      walkStmts_countP_fn b]
  | ifStmt b o =>
    simp [walkStmt, fnDefCount, List.countP_cons, List.countP_append,
      Stmt.isFunctionDef, walkStmts_countP_fn b, walkStmts_countP_fn o]
  | whileStmt b o =>
    simp [walkStmt, fnDefCount, List.countP_cons, List.countP_append,
      Stmt.isFunctionDef, walkStmts_countP_fn b, walkStmts_countP_fn o]
  | forStmt b o =>
    simp [walkStmt, fnDefCount, List.countP_cons, List.countP_append,
      Stmt.isFunctionDef, walkStmts_countP_fn b, walkStmts_countP_fn o]
  | withStmt b =>
    simp [walkStmt, fnDefCount, List.countP_cons, Stmt.isFunctionDef,
      walkStmts_countP_fn b]
  | importStmt => rfl
  | importFrom => rfl
  | exprStmt v => rfl
  | otherStmt => rfl

theorem walkStmts_countP_fn (l : List Stmt) :
    (walkStmts l).countP Stmt.isFunctionDef = fnDefCountList l := by
  cases l with
  | nil => rfl
  | cons s rest =>
    simp [walkStmts, fnDefCountList, List.countP_append,
      walkStmt_countP_fn s, walkStmts_countP_fn rest]

end

mutual

theorem walkStmt_countP_import (s : Stmt) :
    (walkStmt s).countP Stmt.isImport = importCount s := by
  cases s with
  | functionDef n a r b l e =>
    simp [walkStmt, importCount, List.countP_cons, Stmt.isImport,
      walkStmts_countP_import b]
  | classDef n b =>
    simp [walkStmt, importCount, List.countP_cons, Stmt.isImport,
      walkStmts_countP_import b]
  | ifStmt b o =>
    simp [walkStmt, importCount, List.countP_cons, List.countP_append,
      Stmt.isImport, walkStmts_countP_import b, walkStmts_countP_import o]
  | whileStmt b o =>
    simp [walkStmt, importCount, List.countP_cons, List.countP_append,
      Stmt.isImport, walkStmts_countP_import b, walkStmts_countP_import o]
  | forStmt b o =>
    simp [walkStmt, importCount, List.countP_cons, List.countP_append,
      Stmt.isImport, walkStmts_countP_import b, walkStmts_countP_import o]
  | withStmt b =>
    simp [walkStmt, importCount, List.countP_cons, Stmt.isImport,
      walkStmts_countP_import b]
  | importStmt => rfl
  | importFrom => rfl
  | exprStmt v => rfl
  | otherStmt => rfl

theorem walkStmts_countP_import (l : List Stmt) :
    (walkStmts l).countP Stmt.isImport = importCountList l := by
  cases l with
  | nil => rfl
  | cons s rest =>
    simp [walkStmts, importCountList, List.countP_append,
      walkStmt_countP_import s, walkStmts_countP_import rest]

end

theorem foldl_typeHintStep (l : List Stmt) (n : Nat) :
    l.foldl typeHintStep n = n + l.countP returnOrPosArgAnnotated := by
  induction l generalizing n with
  | nil => simp
  | cons s rest ih =>
    have hstep : typeHintStep n s =
        if returnOrPosArgAnnotated s then n + 1 else n := rfl
    rw [List.foldl_cons, hstep, List.countP_cons]
    by_cases hp : returnOrPosArgAnnotated s
    · rw [if_pos hp, if_pos hp, ih]
      omega
    · rw [if_neg hp, if_neg hp, ih]
      omega

theorem count_type_hints_eq_countP (l : List Stmt) :
    count_type_hints l = l.countP returnOrPosArgAnnotated := by
  have := foldl_typeHintStep l 0
  simpa [count_type_hints] using this

theorem pyTruthyStr_get_docstring (s : Stmt) :
    pyTruthyStr (get_docstring s) = firstStmtIsNonblankStrLit s := by
  cases s with
  | functionDef n a r b l e =>
    match b with
    | [] => rfl
    | .exprStmt (.strLit t) :: rest => rfl
    | .exprStmt (.nameE _) :: rest => rfl
    | .exprStmt .otherE :: rest => rfl
    | .functionDef .. :: rest => rfl
    | .classDef .. :: rest => rfl
    | .ifStmt .. :: rest => rfl
    | .whileStmt .. :: rest => rfl
    | .forStmt .. :: rest => rfl
    | .withStmt .. :: rest => rfl
    | .importStmt :: rest => rfl
    | .importFrom :: rest => rfl
    | .otherStmt :: rest => rfl
  | classDef n b => rfl
  | ifStmt b o => rfl
  | whileStmt b o => rfl
  | forStmt b o => rfl
  | withStmt b => rfl
  | importStmt => rfl
  | importFrom => rfl
  | exprStmt v => rfl
  | otherStmt => rfl

/-! ### C3 and C4: the type-hint and docstring metrics -/

/-- C3 counterexample: the two-line source `def f(*, x: int): pass` has a
single function whose only annotation sits on a keyword-only parameter.
The claim counts it (return annotation OR any annotated parameter), but
`_count_type_hints` inspects only `node.args.args`, so the extracted
metric is 0, not 1. -/
theorem count_type_hints_kwonly_cex :
    (analyze "def f(*, x: int):\n    pass" kwonlyModule).type_hints = 0 ∧
    (functionsOf kwonlyModule).countP anyParamAnnotated = 1 :=
  ⟨rfl, rfl⟩

/-- C3 amended: for every parsed source tree, the extractor's type_hints
metric equals the number of enumerated functions that have a return-type
annotation OR at least one positional-or-keyword parameter (the
`args.args` list) with a type annotation; annotations on positional-only,
keyword-only, `*args` and `**kwargs` parameters are not considered. -/
theorem count_type_hints_args_only (source : String) (tree : Module) :
    (analyze source tree).type_hints =
      (functionsOf tree).countP returnOrPosArgAnnotated := by
  simp [analyze, count_type_hints_eq_countP]

/-- C4 counterexample: the two-line source whose single function's first
statement is the empty string literal.  The claim counts it as a
docstring, but `ast.get_docstring` returns the empty string, which is
falsy, so the extracted metric is 0, not 1. -/
theorem docstrings_empty_literal_cex :
    (analyze "def f():\n    \"\"" emptyDocModule).docstrings = 0 ∧
    (functionsOf emptyDocModule).countP firstStmtIsStrLit = 1 :=
  ⟨rfl, rfl⟩

/-- C4 amended: for every parsed source tree, the extractor's docstrings
metric equals the number of enumerated functions whose first statement is
a literal string expression whose text is still non-empty after the
cleaning `ast.get_docstring` performs (so an empty string literal, or one
that cleans to the empty string, is not counted). -/
theorem docstrings_clean_nonempty (source : String) (tree : Module) :
    (analyze source tree).docstrings =
      (functionsOf tree).countP firstStmtIsNonblankStrLit := by
  simp only [analyze]
  exact congrArg (fun p => List.countP p (functionsOf tree))
    (funext pyTruthyStr_get_docstring)

/-! ### C5 and C8: function/import enumeration and the subset invariant -/

/-- C5: For every syntactically valid source text (modelled by its parse
tree, parsing being the external `ast` library), the extractor's functions
metric counts all function-definition nodes anywhere in the syntax tree,
including nested ones, and the imports metric counts all import-statement
nodes of both plain and from-style, anywhere in the tree. -/
theorem functions_imports_walk_counts (source : String) (tree : Module) :
    (analyze source tree).functions = fnDefCountList tree.body ∧
    (analyze source tree).imports = importCountList tree.body := by
  constructor
  · simp only [analyze, functionsOf]
    rw [← List.countP_eq_length_filter]
    exact walkStmts_countP_fn tree.body
  · simp only [analyze]
    exact walkStmts_countP_import tree.body

/-- C8: Invariant on every MetricSet produced by the extractor: all six
counts are non-negative, docstrings <= functions and
type_hints <= functions (each of the two is a subset count over the same
enumerated function list). -/
theorem metricSet_subset_invariant (source : String) (tree : Module) :
    0 ≤ (analyze source tree).lines ∧
    0 ≤ (analyze source tree).functions ∧
    0 ≤ (analyze source tree).imports ∧
    0 ≤ (analyze source tree).docstrings ∧
    0 ≤ (analyze source tree).type_hints ∧
    0 ≤ (analyze source tree).long_functions ∧
    (analyze source tree).docstrings ≤ (analyze source tree).functions ∧
    (analyze source tree).type_hints ≤ (analyze source tree).functions := by
  refine ⟨Nat.zero_le _, Nat.zero_le _, Nat.zero_le _, Nat.zero_le _,
    Nat.zero_le _, Nat.zero_le _, ?_, ?_⟩
  · simp only [analyze]
    exact List.countP_le_length _
  · simp only [analyze, count_type_hints_eq_countP]
    exact List.countP_le_length _

/-! ### C9: CLI validation -/

theorem pathSuffix_py_endsWith {p : String}
    (hp : pathSuffix p = ['.', 'p', 'y']) :
    ['.', 'p', 'y'] <:+ pathName p := by
  simp only [pathSuffix] at hp
  rcases hd : lastDotIndex (pathName p) with _ | i
  · rw [hd] at hp
    simp at hp
  · rw [hd] at hp
    dsimp only at hp
    split_ifs at hp with hc
    rw [← hp]
    exact List.drop_suffix i (pathName p)

/-- C9: The CLI exits nonzero with a usage error whenever the argument
count is not exactly one path argument, and exits nonzero with a
validation error whenever the given path is not an existing regular file
whose name ends in ".py"; in both cases the outcome is not the analysis
pipeline. -/
theorem main_argument_validation (prog : String) (args : List String)
    (is_file : String → Bool) :
    (args.length ≠ 1 → main prog args is_file = .usageError) ∧
    (∀ p, args = [p] →
      ¬ (is_file p = true ∧ ['.', 'p', 'y'] <:+ pathName p) →
      main prog args is_file = .validationError p) := by
  constructor
  · intro hlen
    simp only [main, List.length_cons]
    rw [if_pos (by omega)]
  · rintro p rfl hbad
    simp only [main, List.length_cons, List.length_nil, List.headD_cons]
    rw [if_neg (by omega)]
    rw [if_pos ?_]
    rcases hf : is_file p with _ | _
    · exact Or.inl rfl
    · refine Or.inr fun hsuf => hbad ⟨hf, pathSuffix_py_endsWith hsuf⟩

/-- Witness for C9: one extra argument is a usage error, and an existing
regular file without the ".py" extension is a validation error. -/
theorem main_argument_validation_witness :
    main "analyzer.py" ["README.md"] (fun _ => true) =
      .validationError "README.md" ∧
    main "analyzer.py" [] (fun _ => true) = .usageError := by
  constructor
  · exact (main_argument_validation "analyzer.py" ["README.md"]
      (fun _ => true)).2 "README.md" rfl (by decide)
  · exact (main_argument_validation "analyzer.py" []
      (fun _ => true)).1 (by decide)

end CodeMonitor
